import Mathlib

/-!
Verification development for the llm-db-optimization repository.

Shallow embedding of the core of the service:
* the Output Sanitizer of DDLAgent/DeveloperAgent (strip_markdown_and_clean +
  split_clean, line based) and of QueryOptimizerAgent (clean_llm_output,
  comment removing + whitespace normalising);
* the sort stage GoogleOptimizerAgent.sort_queries_by_total_time, with Python
  dynamic values (int or str metrics, possibly absent keys) and the stable
  descending sorted(..., key=..., reverse=True) semantics;
* the optimize-queries fan-out of GoogleOptimizerAgent.optimize_queries
  (asyncio.gather, no per-item fallback) and of
  QueryOptimizerAgent: process_single_query / optimize_queries_node
  (try/except fallback to the original query);
* the TaskManager registry (services/task_manager.py) over insertion-ordered
  association lists modelling Python dicts.

Text is modelled as List Char; regular-expression passes of the source are
embedded as recursive character scanners with the same observable effect,
documented at each definition.
-/

-- ===== text model =====

abbrev Str := List Char

/-- The backquote character, Char.ofNat 96. -/
def tick : Char := Char.ofNat 96

/-- Python str.strip() whitespace set (space, tab, newline, return, vertical tab, form feed). -/
def isPySpace (c : Char) : Bool :=
  c = ' ' || c = '\t' || c = '\n' || c = '\r' || c = '\x0b' || c = '\x0c'

/-- Python regex word character, as used in the [\w]* of the fence patterns. -/
def isWordChar (c : Char) : Bool := c.isAlphanum || c = '_'

/-- Python text.split with separator a newline: always at least one piece. -/
def splitNL : Str → List Str
  | [] => [[]]
  | c :: rest =>
    if c = '\n' then [] :: splitNL rest
    else
      match splitNL rest with
      | [] => [[c]]
      | l :: ls => (c :: l) :: ls

/-- Python newline.join. -/
def joinNL : List Str → Str
  | [] => []
  | [l] => l
  | l :: ls => l ++ '\n' :: joinNL ls

/-- A line matched by the multiline pattern: line start, three backquotes, word chars, newline.
Such a line consists of three backquotes followed by word characters only. -/
def isFenceOpenLine (l : Str) : Bool :=
  match l with
  | c1 :: c2 :: c3 :: rest => c1 = tick && c2 = tick && c3 = tick && rest.all isWordChar
  | _ => false

def ticks3 : Str := [tick, tick, tick]

/-- First substitution of strip_markdown_and_clean: the multiline pattern
removes every matching line together with its terminating newline; the final
line of the text has no terminating newline, so it is never removed. -/
def sub1Lines : List Str → List Str
  | [] => []
  | [l] => [l]
  | l :: ls => if isFenceOpenLine l then sub1Lines ls else l :: sub1Lines ls

/-- Second substitution: newline followed by exactly three backquotes at a line
end; on the line decomposition it removes every line other than the first that
is exactly three backquotes (the first line has no preceding newline). -/
def sub2Lines : List Str → List Str
  | [] => []
  | l :: ls => l :: ls.filter (fun m => !(m == ticks3))

/-- text.replace of three backquotes by the empty string, left to right,
non-overlapping. -/
def stripTicks : Str → Str
  | [] => []
  | [c] => [c]
  | [c1, c2] => [c1, c2]
  | c1 :: c2 :: c3 :: rest =>
    if c1 = tick && c2 = tick && c3 = tick then stripTicks rest
    else c1 :: stripTicks (c2 :: c3 :: rest)

/-- Drop the trailing run of characters satisfying p (the right half of
Python str.strip). -/
def pyDropTrail (p : Char → Bool) (l : Str) : Str :=
  List.foldr (fun c acc => if acc.isEmpty && p c then [] else c :: acc) [] l

/-- Python str.strip(). -/
def pyStrip (l : Str) : Str := pyDropTrail isPySpace (l.dropWhile isPySpace)

/-- DDLAgent / DeveloperAgent strip_markdown_and_clean: the two fence
substitutions, then replacement of remaining triple backquotes, then strip. -/
def stripMarkdownAndClean (t : Str) : Str :=
  pyStrip (stripTicks (joinNL (sub2Lines (sub1Lines (splitNL t)))))

/-- DDLAgent / DeveloperAgent split_clean: clean, split on newlines, strip each
line, keep the non-empty ones. -/
def splitClean (t : Str) : List Str :=
  ((splitNL (stripMarkdownAndClean t)).map pyStrip).filter (fun l => !l.isEmpty)

-- ===== QueryOptimizerAgent clean_llm_output =====

/-- Fence pattern of clean_llm_output: three backquotes with an optional
greedy run of word characters. -/
def stripFences : Str → Str
  | [] => []
  | [c] => [c]
  | [c1, c2] => [c1, c2]
  | c1 :: c2 :: c3 :: rest =>
    if c1 = tick && c2 = tick && c3 = tick then stripFences (rest.dropWhile isWordChar)
    else c1 :: stripFences (c2 :: c3 :: rest)
termination_by l => l.length
decreasing_by
· have h : (rest.dropWhile isWordChar).length ≤ rest.length := by
    induction rest with
    | nil => simp [List.dropWhile]
    | cons a as ih =>
      rw [List.dropWhile]
      split
      · simp only [List.length_cons]
        omega
      · exact Nat.le_refl _
  simp only [List.length_cons]
  omega
· simp only [List.length_cons]
  omega

/-- Line-comment pass: two dashes up to (excluding) the next newline are
removed, leftmost first; the scanner flag records being inside a comment. -/
def rlcAux : Bool → Str → Str
  | _, [] => []
  | true, c :: rest => if c = '\n' then c :: rlcAux false rest else rlcAux true rest
  | false, [c] => [c]
  | false, c1 :: c2 :: rest =>
    if c1 = '-' && c2 = '-' then rlcAux true rest
    else c1 :: rlcAux false (c2 :: rest)

def removeLineComments (t : Str) : Str := rlcAux false t

/-- Does star-slash occur anywhere in the text? -/
def hasClose : Str → Bool
  | [] => false
  | [_] => false
  | c1 :: c2 :: rest => (c1 = '*' && c2 = '/') || hasClose (c2 :: rest)

/-- Block-comment pass, non-greedy, dotall: slash-star up to the first
star-slash is removed; an unclosed opener is left intact (the pattern can
match nowhere in the remaining text). -/
def rbcAux : Bool → Str → Str
  | _, [] => []
  | true, [_] => []
  | true, c1 :: c2 :: rest =>
    if c1 = '*' && c2 = '/' then rbcAux false rest else rbcAux true (c2 :: rest)
  | false, [c] => [c]
  | false, c1 :: c2 :: rest =>
    if c1 = '/' && c2 = '*' then
      (if hasClose rest then rbcAux true rest else c1 :: c2 :: rest)
    else c1 :: rbcAux false (c2 :: rest)

def removeBlockComments (t : Str) : Str := rbcAux false t

def isRNT (c : Char) : Bool := c = '\r' || c = '\n' || c = '\t'

/-- Collapse every run of return / newline / tab characters to one space. -/
def crntAux : Bool → Str → Str
  | _, [] => []
  | true, c :: rest => if isRNT c then crntAux true rest else c :: crntAux false rest
  | false, c :: rest => if isRNT c then ' ' :: crntAux true rest else c :: crntAux false rest

def collapseRNT (t : Str) : Str := crntAux false t

/-- Collapse every run of whitespace characters to one space. -/
def cwsAux : Bool → Str → Str
  | _, [] => []
  | true, c :: rest => if isPySpace c then cwsAux true rest else c :: cwsAux false rest
  | false, c :: rest => if isPySpace c then ' ' :: cwsAux true rest else c :: cwsAux false rest

def collapseWS (t : Str) : Str := cwsAux false t

/-- Final step of clean_llm_output: append a semicolon to a non-empty text
that does not already end with one. -/
def cleanFinal (t6 : Str) : Str :=
  if t6.isEmpty then t6
  else if t6.getLast? = some ';' then t6 else t6 ++ [';']

/-- QueryOptimizerAgent clean_llm_output: remove fences, remove line comments,
remove block comments, normalise whitespace, strip, ensure a terminating
semicolon on non-empty output. -/
def cleanLLMOutput (t : Str) : Str :=
  cleanFinal (pyStrip (collapseWS (collapseRNT (removeBlockComments (removeLineComments (stripFences t))))))

/-- Is the head character a dash? -/
def headIsDash : Str → Bool
  | [] => false
  | c :: _ => c = '-'

/-- Does the text contain two adjacent dashes (the SQL line-comment opener)? -/
def containsDD : Str → Bool
  | [] => false
  | [_] => false
  | c1 :: c2 :: rest => (c1 = '-' && c2 = '-') || containsDD (c2 :: rest)

-- ===== Python values and the sort stage =====

/-- A Python value that can sit under the runquantity / executiontime keys:
the schema sends int, but the sort code itself accepts anything. -/
inductive PyVal where
  | int (n : Int)
  | str (s : Str)
deriving DecidableEq

inductive PyErr where
  | typeError
deriving DecidableEq

/-- Python lexicographic order on strings (by code point). -/
def strLt : Str → Str → Bool
  | [], [] => false
  | [], _ :: _ => true
  | _ :: _, [] => false
  | a :: as, b :: bs => if a < b then true else if b < a then false else strLt as bs

/-- Python str * int : repetition, empty for a non-positive count. -/
def repeatStr (s : Str) (n : Int) : Str := List.flatten (List.replicate n.toNat s)

/-- Python multiplication restricted to the values above: int*int, str*int and
int*str are defined, str*str raises TypeError. -/
def pyMul : PyVal → PyVal → Except PyErr PyVal
  | PyVal.int a, PyVal.int b => Except.ok (PyVal.int (a * b))
  | PyVal.str s, PyVal.int n => Except.ok (PyVal.str (repeatStr s n))
  | PyVal.int n, PyVal.str s => Except.ok (PyVal.str (repeatStr s n))
  | PyVal.str _, PyVal.str _ => Except.error PyErr.typeError

/-- Python comparison x >= y on sort keys: defined within one type, TypeError
across types. -/
def pyGe : PyVal → PyVal → Except PyErr Bool
  | PyVal.int a, PyVal.int b => Except.ok (decide (b ≤ a))
  | PyVal.str a, PyVal.str b => Except.ok (!strLt a b)
  | _, _ => Except.error PyErr.typeError

/-- dict.get(key, 0): the metric value, or int 0 when the key is absent. -/
def pyGet (v : Option PyVal) : PyVal := v.getD (PyVal.int 0)

/-- One element of the queries list of the pipeline state. The two metric
fields are Option: a key can be missing from the dict. -/
structure QueryItem where
  queryid : String
  query : Str
  runquantity : Option PyVal
  executiontime : Option PyVal
deriving DecidableEq

/-- Numeric reading of a metric: absent means 0; a str value has no numeric
reading and is mapped to 0 here (only used to state claims about numeric
workloads). -/
def metricInt (v : Option PyVal) : Int :=
  match pyGet v with
  | PyVal.int n => n
  | PyVal.str _ => 0

/-- Impact of a workload item: runquantity times executiontime. -/
def impact (q : QueryItem) : Int := metricInt q.runquantity * metricInt q.executiontime

/-- The metric is absent or an int (the shape the request schema guarantees). -/
def isIntMetric (v : Option PyVal) : Bool :=
  match v with
  | none => true
  | some (PyVal.int _) => true
  | some (PyVal.str _) => false

/-- Key computation of sorted(..., key=lambda q: q.get(..., 0) * q.get(..., 0)):
keys are computed once per element, in list order, before any comparison. -/
def decorateE : List QueryItem → Except PyErr (List (QueryItem × PyVal))
  | [] => Except.ok []
  | q :: qs =>
    match pyMul (pyGet q.runquantity) (pyGet q.executiontime) with
    | Except.error e => Except.error e
    | Except.ok k =>
      match decorateE qs with
      | Except.error e => Except.error e
      | Except.ok r => Except.ok ((q, k) :: r)

/-- Stable insertion for the descending sort: x is placed before the first
element whose key it is greater than or equal to, so an earlier element
precedes later elements with an equal key, as Python's stable sorted with
reverse=True does. -/
def insertE (x : QueryItem × PyVal) : List (QueryItem × PyVal) → Except PyErr (List (QueryItem × PyVal))
  | [] => Except.ok [x]
  | y :: ys =>
    match pyGe x.2 y.2 with
    | Except.error e => Except.error e
    | Except.ok true => Except.ok (x :: y :: ys)
    | Except.ok false =>
      match insertE x ys with
      | Except.error e => Except.error e
      | Except.ok r => Except.ok (y :: r)

def sortE : List (QueryItem × PyVal) → Except PyErr (List (QueryItem × PyVal))
  | [] => Except.ok []
  | x :: xs =>
    match sortE xs with
    | Except.error e => Except.error e
    | Except.ok r => insertE x r

/-- GoogleOptimizerAgent.sort_queries_by_total_time: sorted(queries,
key=lambda q: q.get(runquantity, 0) * q.get(executiontime, 0), reverse=True),
embedded extensionally as a stable descending insertion sort over the
decorated list; an error anywhere is a raised TypeError. -/
def sort_queries_by_total_time (qs : List QueryItem) : Except PyErr (List QueryItem) :=
  match decorateE qs with
  | Except.error e => Except.error e
  | Except.ok keyed =>
    match sortE keyed with
    | Except.error e => Except.error e
    | Except.ok s => Except.ok (s.map Prod.fst)

/-- Pure stable descending insertion on integer impacts (the reference for the
all-numeric case). -/
def insertQ (x : QueryItem) : List QueryItem → List QueryItem
  | [] => [x]
  | y :: ys => if impact y ≤ impact x then x :: y :: ys else y :: insertQ x ys

def sortQ : List QueryItem → List QueryItem
  | [] => []
  | x :: xs => insertQ x (sortQ xs)

/-- Decoration of an all-numeric item with its integer impact key. -/
def decorate (q : QueryItem) : QueryItem × PyVal := (q, PyVal.int (impact q))

-- ===== task registry (services/task_manager.py) =====

inductive TState where
  | RUNNING
  | FAILED
  | DONE
deriving DecidableEq

/-- One optimized query of the response schema. -/
structure OptimizedQuery where
  queryid : String
  query : String
deriving DecidableEq

/-- The OptimizationResponse stored as a task result. -/
structure OptimizationResponse where
  ddl : List String
  migrations : List String
  queries : List OptimizedQuery
deriving DecidableEq

/-- Python dict assignment d[k] = v on an insertion-ordered association list:
overwrite in place, else append. -/
def dictSet {α : Type} (d : List (String × α)) (k : String) (v : α) : List (String × α) :=
  match d with
  | [] => [(k, v)]
  | p :: rest => if p.1 = k then (k, v) :: rest else p :: dictSet rest k v

/-- Python dict lookup d.get(k). -/
def dictFind? {α : Type} (d : List (String × α)) (k : String) : Option α :=
  match d with
  | [] => none
  | p :: rest => if p.1 = k then some p.2 else dictFind? rest k

/-- Python dict lookup with default, d.get(k, dflt). -/
def dictGetD {α : Type} (d : List (String × α)) (k : String) (dflt : α) : α :=
  (dictFind? d k).getD dflt

/-- TaskManager: the tasks dict (id to state) and the results dict. -/
structure TaskManager where
  tasks : List (String × TState)
  tasksResults : List (String × OptimizationResponse)
deriving DecidableEq

def TaskManager.empty : TaskManager := TaskManager.mk [] []

/-- TaskManager.create_task: a fresh uuid4 identifier (passed explicitly here)
is recorded as RUNNING. -/
def create_task (tm : TaskManager) (id : String) : TaskManager :=
  TaskManager.mk (dictSet tm.tasks id TState.RUNNING) tm.tasksResults

/-- TaskManager.get_task_state: self.tasks.get(task_id, State.FAILED). -/
def get_task_state (tm : TaskManager) (id : String) : TState :=
  dictGetD tm.tasks id TState.FAILED

/-- TaskManager.change_task_state: unconditional assignment. -/
def change_task_state (tm : TaskManager) (id : String) (s : TState) : TaskManager :=
  TaskManager.mk (dictSet tm.tasks id s) tm.tasksResults

/-- TaskManager.set_task_result. -/
def set_task_result (tm : TaskManager) (id : String) (r : OptimizationResponse) : TaskManager :=
  TaskManager.mk tm.tasks (dictSet tm.tasksResults id r)

/-- TaskManager.get_task_result: self.tasks_results.get(task_id, None). -/
def get_task_result (tm : TaskManager) (id : String) : Option OptimizationResponse :=
  dictFind? tm.tasksResults id

-- ===== fan-out stages =====

/-- One rewritten entry of out_queries. -/
structure RewrittenQuery where
  queryid : String
  query : Str
deriving DecidableEq

/-- GoogleOptimizerAgent.optimize_queries: asyncio.gather over process_query
for each item in order, no try/except, so the first per-item error fails the
whole stage; the external rewriter is a parameter. -/
def googleOptimizeQueries (rw : Str → Except String Str) : List QueryItem → Except String (List RewrittenQuery)
  | [] => Except.ok []
  | q :: qs =>
    match rw q.query with
    | Except.error e => Except.error e
    | Except.ok o =>
      match googleOptimizeQueries rw qs with
      | Except.error e => Except.error e
      | Except.ok rest => Except.ok (RewrittenQuery.mk q.queryid o :: rest)

/-- Body of the try block of QueryOptimizerAgent.process_single_query: LLM
call, clean_llm_output, then sqlglot parse-and-optimize twice; rw and gl are
the two external calls. -/
def rewriteAttempt (rw gl : Str → Except String Str) (q : QueryItem) : Except String Str :=
  match rw q.query with
  | Except.error e => Except.error e
  | Except.ok raw =>
    match gl (cleanLLMOutput raw) with
    | Except.error e => Except.error e
    | Except.ok p1 =>
      match gl p1 with
      | Except.error e => Except.error e
      | Except.ok p2 => Except.ok p2

/-- QueryOptimizerAgent.process_single_query: on any exception the item falls
back to its original query text; the identifier is kept either way. -/
def processSingleQuery (rw gl : Str → Except String Str) (q : QueryItem) : RewrittenQuery :=
  match rewriteAttempt rw gl q with
  | Except.ok f => RewrittenQuery.mk q.queryid f
  | Except.error _ => RewrittenQuery.mk q.queryid q.query

/-- QueryOptimizerAgent optimize_queries_node: gather over
process_single_query, which never raises, in input order. -/
def optimizeQueriesNode (rw gl : Str → Except String Str) (qs : List QueryItem) : List RewrittenQuery :=
  qs.map (processSingleQuery rw gl)

-- ===== concrete inputs used by counterexamples and witnesses =====

/-- An always-failing external rewriter. -/
def rwFail : Str → Except String Str := fun _ => Except.error "boom"

/-- An always-succeeding identity rewriter. -/
def rwOk : Str → Except String Str := fun s => Except.ok s

/-- An identity stand-in for the sqlglot optimizer. -/
def glId : Str → Except String Str := fun s => Except.ok s

def exQ1 : QueryItem := QueryItem.mk "q1" (String.toList "SELECT 1") none none

/-- Item whose runquantity is the Python string a (a non-numeric metric). -/
def exQa : QueryItem :=
  QueryItem.mk "qa" (String.toList "SELECT A") (some (PyVal.str ['a'])) (some (PyVal.int 1))

/-- Item whose runquantity is the Python string b. -/
def exQb : QueryItem :=
  QueryItem.mk "qb" (String.toList "SELECT B") (some (PyVal.str ['b'])) (some (PyVal.int 1))

/-- Spec section 8 example: A(run 2, time 5), B(run 0, time 100), C(run 3, time 1). -/
def exA : QueryItem := QueryItem.mk "A" (String.toList "SELECT A") (some (PyVal.int 2)) (some (PyVal.int 5))

def exB : QueryItem := QueryItem.mk "B" (String.toList "SELECT B") (some (PyVal.int 0)) (some (PyVal.int 100))

def exC : QueryItem := QueryItem.mk "C" (String.toList "SELECT C") (some (PyVal.int 3)) (some (PyVal.int 1))

/-- A fenced block whose body starts with a SQL line comment. -/
def exC8text : Str := String.toList "```sql\n-- drop index\nSELECT 1;\n```"

def exComment : Str := String.toList "-- drop index"

def exSelect : Str := String.toList "SELECT 1;"

/-- A fence-free, slash-free LLM answer with a line comment. -/
def exC8clean : Str := String.toList "SELECT 1 -- fast\nFROM t"

def exEmptyResult : OptimizationResponse := OptimizationResponse.mk [] [] []

-- ===== helper lemmas =====

theorem dictFind?_set_self {α : Type} (d : List (String × α)) (k : String) (v : α) :
    dictFind? (dictSet d k v) k = some v := by
  induction d with
  | nil => simp [dictSet, dictFind?]
  | cons p rest ih =>
    by_cases h : p.1 = k
    · simp [dictSet, dictFind?, h]
    · simp [dictSet, dictFind?, h, ih]

-- ===== claim theorems: task registry =====

/-- C3 counterexample: on a never-issued identifier the status query does not
fail with a NotFound condition; it returns the ordinary cached-style status
FAILED (the dict-lookup default), which is in particular not RUNNING. -/
theorem c3_counterexample_unknown_status_failed :
    get_task_state TaskManager.empty "deadbeef" = TState.FAILED ∧
    TState.FAILED ≠ TState.RUNNING :=
  ⟨rfl, by decide⟩

/-- C3 amended: for an identifier present in neither dict, get_task_state
returns FAILED (never RUNNING, never a NotFound failure) and get_task_result
returns none (which the result route maps to HTTP 404). -/
theorem c3_unknown_id_failed_and_absent (tm : TaskManager) (id : String)
    (h1 : dictFind? tm.tasks id = none) (h2 : dictFind? tm.tasksResults id = none) :
    get_task_state tm id = TState.FAILED ∧
    get_task_state tm id ≠ TState.RUNNING ∧
    get_task_result tm id = none := by
  refine ⟨?_, ?_, ?_⟩
  · simp [get_task_state, dictGetD, h1]
  · simp [get_task_state, dictGetD, h1]
  · simp [get_task_result, h2]

/-- C3 witness: the amended statement instantiated at the empty registry and a
concrete unknown identifier. -/
theorem c3_unknown_witness :
    get_task_state TaskManager.empty "missing" = TState.FAILED ∧
    get_task_state TaskManager.empty "missing" ≠ TState.RUNNING ∧
    get_task_result TaskManager.empty "missing" = none :=
  c3_unknown_id_failed_and_absent TaskManager.empty "missing" rfl rfl

/-- C4 counterexample: a task whose status has become DONE is changed again by
a later change_task_state call, back to RUNNING. -/
theorem c4_counterexample_done_back_to_running :
    get_task_state (change_task_state (create_task TaskManager.empty "t1") "t1" TState.DONE) "t1" = TState.DONE ∧
    get_task_state (change_task_state (change_task_state (create_task TaskManager.empty "t1") "t1" TState.DONE) "t1" TState.RUNNING) "t1" = TState.RUNNING :=
  ⟨rfl, rfl⟩

/-- C4 amended: change_task_state is an unconditional overwrite, so the status
read back is always the last state written, with no one-way guard on DONE or
FAILED; the read operations themselves never modify the registry, so repeated
queries without an intervening write return identical values. -/
theorem c4_last_write_wins (tm : TaskManager) (id : String) (s : TState) :
    get_task_state (change_task_state tm id s) id = s := by
  simp [get_task_state, change_task_state, dictGetD, dictFind?_set_self]

/-- C5 counterexample: a result stored while the task status is still RUNNING
is returned by get_task_result, so the result lookup is not gated on DONE. -/
theorem c5_counterexample_result_while_running :
    get_task_state (set_task_result (create_task TaskManager.empty "t1") "t1" exEmptyResult) "t1" = TState.RUNNING ∧
    get_task_result (set_task_result (create_task TaskManager.empty "t1") "t1" exEmptyResult) "t1" = some exEmptyResult :=
  ⟨rfl, rfl⟩

/-- C5 amended: get_task_result returns exactly what set_task_result stored
for that identifier, independent of the status dict: a status change never
affects it, and an identifier with no stored result yields none. -/
theorem c5_result_independent_of_status (tm : TaskManager) (id : String)
    (r : OptimizationResponse) (s : TState) :
    get_task_result (set_task_result tm id r) id = some r ∧
    get_task_result (change_task_state tm id s) id = get_task_result tm id ∧
    get_task_result TaskManager.empty id = none := by
  refine ⟨?_, rfl, rfl⟩
  simp [get_task_result, set_task_result, dictFind?_set_self]

/-- C6: immediately after create_task records a fresh identifier, the status
query on that identifier returns RUNNING. -/
theorem c6_status_running_after_create (tm : TaskManager) (id : String) :
    get_task_state (create_task tm id) id = TState.RUNNING := by
  simp [get_task_state, create_task, dictGetD, dictFind?_set_self]

-- ===== claim theorems: optimize-queries fan-out =====

/-- C2 counterexample: in GoogleOptimizerAgent.optimize_queries one failing
rewrite fails the whole stage: the result is the raised error and carries no
per-item entries at all, instead of an entry with the original SQL. -/
theorem c2_counterexample_google_fanout_fails :
    googleOptimizeQueries rwFail [exQ1] = Except.error "boom" ∧
    (googleOptimizeQueries rwFail [exQ1]).toOption = none :=
  ⟨rfl, rfl⟩

/-- C2 amended: in the QueryOptimizerAgent variant the fan-out result has
exactly one entry per input item, positionally keyed by the item's original
identifier, and an item whose rewrite attempt fails keeps its original SQL
text; the GoogleOptimizerAgent variant instead fails the stage on the first
per-item error. -/
theorem c2_fanout_fallback_per_item (rw gl : Str → Except String Str) (qs : List QueryItem) :
    (optimizeQueriesNode rw gl qs).length = qs.length ∧
    (∀ i : Nat, ((optimizeQueriesNode rw gl qs).get? i).map RewrittenQuery.queryid
        = (qs.get? i).map QueryItem.queryid) ∧
    (∀ i : Nat, ∀ q : QueryItem, ∀ e : String, qs.get? i = some q →
      rewriteAttempt rw gl q = Except.error e →
      (optimizeQueriesNode rw gl qs).get? i = some (RewrittenQuery.mk q.queryid q.query)) := by
  refine ⟨by simp [optimizeQueriesNode], ?_, ?_⟩
  · intro i
    rw [optimizeQueriesNode, List.get?_map]
    cases hq : qs.get? i with
    | none => rfl
    | some q =>
      cases h : rewriteAttempt rw gl q <;> simp [processSingleQuery, h]
  · intro i q e hq hrw
    rw [optimizeQueriesNode, List.get?_map, hq]
    simp [processSingleQuery, hrw]

/-- C2 witness: a failing rewriter on a one-item workload still yields the
entry for the item, carrying its original SQL. -/
theorem c2_fanout_fallback_witness :
    (optimizeQueriesNode rwFail glId [exQ1]).get? 0 = some (RewrittenQuery.mk "q1" exQ1.query) :=
  (c2_fanout_fallback_per_item rwFail glId [exQ1]).2.2 0 exQ1 "boom" rfl rfl

/-- C10: when every individual rewrite succeeds, the google fan-out succeeds
and its output preserves dispatch order positionally: the i-th entry carries
the identifier of the i-th input item. -/
theorem c10_fanout_positional_ids (rw : Str → Except String Str) (qs : List QueryItem)
    (h : ∀ q ∈ qs, ∃ s, rw q.query = Except.ok s) :
    ∃ out, googleOptimizeQueries rw qs = Except.ok out ∧
      out.length = qs.length ∧
      ∀ i : Nat, (out.get? i).map RewrittenQuery.queryid = (qs.get? i).map QueryItem.queryid := by
  induction qs with
  | nil => exact ⟨[], rfl, rfl, fun i => by simp⟩
  | cons q qs ih =>
    obtain ⟨s, hs⟩ := h q (by simp)
    obtain ⟨out, hout, hlen, hpos⟩ := ih (fun p hp => h p (by simp [hp]))
    refine ⟨RewrittenQuery.mk q.queryid s :: out, ?_, ?_, ?_⟩
    · simp [googleOptimizeQueries, hs, hout]
    · simp [hlen]
    · intro i
      cases i with
      | zero => simp
      | succ n => simpa using hpos n

/-- C10 witness: the positional guarantee instantiated at a one-item workload
with an always-succeeding rewriter. -/
theorem c10_fanout_positional_witness :
    ∃ out, googleOptimizeQueries rwOk [exQ1] = Except.ok out ∧
      out.length = [exQ1].length ∧
      ∀ i : Nat, (out.get? i).map RewrittenQuery.queryid = ([exQ1].get? i).map QueryItem.queryid :=
  c10_fanout_positional_ids rwOk [exQ1] (fun q _ => ⟨q.query, rfl⟩)

-- ===== helper lemmas: sort stage =====

theorem mem_insertQ (x a : QueryItem) (l : List QueryItem) :
    a ∈ insertQ x l ↔ a = x ∨ a ∈ l := by
  induction l with
  | nil => simp [insertQ]
  | cons y ys ih =>
    by_cases h : impact y ≤ impact x
    · simp [insertQ, h]
    · simp [insertQ, h, ih]
      tauto

theorem pairwise_insertQ (x : QueryItem) (l : List QueryItem)
    (h : List.Pairwise (fun a b => impact b ≤ impact a) l) :
    List.Pairwise (fun a b => impact b ≤ impact a) (insertQ x l) := by
  induction l with
  | nil => simp [insertQ]
  | cons y ys ih =>
    rw [List.pairwise_cons] at h
    obtain ⟨hy, hys⟩ := h
    by_cases hc : impact y ≤ impact x
    · rw [insertQ, if_pos hc]
      refine List.Pairwise.cons ?_ (List.Pairwise.cons hy hys)
      intro b hb
      rcases List.mem_cons.mp hb with rfl | hb
      · exact hc
      · exact le_trans (hy b hb) hc
    · rw [insertQ, if_neg hc]
      refine List.Pairwise.cons ?_ (ih hys)
      intro b hb
      rcases (mem_insertQ x b ys).mp hb with rfl | hb
      · omega
      · exact hy b hb

theorem pairwise_sortQ (l : List QueryItem) :
    List.Pairwise (fun a b => impact b ≤ impact a) (sortQ l) := by
  induction l with
  | nil => simp [sortQ]
  | cons x xs ih => exact pairwise_insertQ x (sortQ xs) ih

theorem filter_insertQ (x : QueryItem) (l : List QueryItem) (k : Int) :
    (insertQ x l).filter (fun q => impact q == k) =
      if impact x == k then x :: l.filter (fun q => impact q == k)
      else l.filter (fun q => impact q == k) := by
  induction l with
  | nil =>
    by_cases hx : impact x = k <;> simp [insertQ, List.filter_cons, hx]
  | cons y ys ih =>
    by_cases hc : impact y ≤ impact x
    · rw [insertQ, if_pos hc]
      by_cases hx : impact x = k <;> simp [List.filter_cons, hx]
    · rw [insertQ, if_neg hc]
      by_cases hx : impact x = k
      · have hy : ¬ impact y = k := by omega
        simp [List.filter_cons, hx, hy, ih]
      · simp [List.filter_cons, hx, ih]

theorem filter_sortQ (l : List QueryItem) (k : Int) :
    (sortQ l).filter (fun q => impact q == k) = l.filter (fun q => impact q == k) := by
  induction l with
  | nil => simp [sortQ]
  | cons x xs ih =>
    rw [sortQ, filter_insertQ, ih]
    by_cases hx : impact x = k <;> simp [List.filter_cons, hx]

theorem pyGet_int (v : Option PyVal) (h : isIntMetric v = true) :
    pyGet v = PyVal.int (metricInt v) := by
  cases v with
  | none => simp [pyGet, metricInt]
  | some pv =>
    cases pv with
    | int n => simp [pyGet, metricInt]
    | str s => simp [isIntMetric] at h

theorem pyMul_int (q : QueryItem) (h1 : isIntMetric q.runquantity = true)
    (h2 : isIntMetric q.executiontime = true) :
    pyMul (pyGet q.runquantity) (pyGet q.executiontime) = Except.ok (PyVal.int (impact q)) := by
  rw [pyGet_int _ h1, pyGet_int _ h2]
  simp [pyMul, impact]

theorem decorateE_int (qs : List QueryItem)
    (h : ∀ q ∈ qs, isIntMetric q.runquantity = true ∧ isIntMetric q.executiontime = true) :
    decorateE qs = Except.ok (qs.map decorate) := by
  induction qs with
  | nil => rfl
  | cons q rest ih =>
    obtain ⟨h1, h2⟩ := h q (by simp)
    rw [decorateE, pyMul_int q h1 h2, ih (fun p hp => h p (by simp [hp]))]
    rfl

theorem insertE_int (x : QueryItem) (l : List QueryItem) :
    insertE (decorate x) (l.map decorate) = Except.ok ((insertQ x l).map decorate) := by
  induction l with
  | nil => rfl
  | cons y ys ih =>
    by_cases hc : impact y ≤ impact x
    · simp [insertE, decorate, pyGe, hc, insertQ]
    · simp [insertE, decorate, pyGe, hc, insertQ,
        show insertE (x, PyVal.int (impact x)) (List.map decorate ys)
            = Except.ok ((insertQ x ys).map decorate) from ih]

theorem sortE_int (l : List QueryItem) :
    sortE (l.map decorate) = Except.ok ((sortQ l).map decorate) := by
  induction l with
  | nil => rfl
  | cons x xs ih => simp [sortE, ih, sortQ, insertE_int]

theorem sort_int (qs : List QueryItem)
    (h : ∀ q ∈ qs, isIntMetric q.runquantity = true ∧ isIntMetric q.executiontime = true) :
    sort_queries_by_total_time qs = Except.ok (sortQ qs) := by
  rw [sort_queries_by_total_time, decorateE_int qs h]
  simp [sortE_int, List.map_map]
  rw [show Prod.fst ∘ decorate = id from rfl, List.map_id]

theorem insertE_perm (x : QueryItem × PyVal) (l m : List (QueryItem × PyVal))
    (h : insertE x l = Except.ok m) : m.Perm (x :: l) := by
  induction l generalizing m with
  | nil =>
    simp [insertE] at h
    subst h
    exact List.Perm.refl _
  | cons y ys ih =>
    rw [insertE] at h
    split at h
    · cases h
    · cases h
      exact List.Perm.refl _
    · split at h
      · cases h
      · cases h
        rename_i r hi
        exact ((ih r hi).cons y).trans (List.Perm.swap x y ys)

theorem sortE_perm (l m : List (QueryItem × PyVal)) (h : sortE l = Except.ok m) :
    m.Perm l := by
  induction l generalizing m with
  | nil =>
    simp [sortE] at h
    subst h
    exact List.Perm.refl _
  | cons x xs ih =>
    rw [sortE] at h
    split at h
    · cases h
    · rename_i r hs
      exact (insertE_perm x r m h).trans ((ih r hs).cons x)

theorem decorateE_fst (qs : List QueryItem) (keyed : List (QueryItem × PyVal))
    (h : decorateE qs = Except.ok keyed) : keyed.map Prod.fst = qs := by
  induction qs generalizing keyed with
  | nil =>
    simp [decorateE] at h
    subst h
    rfl
  | cons q rest ih =>
    rw [decorateE] at h
    split at h
    · cases h
    · split at h
      · cases h
      · cases h
        rename_i k _ r hd
        simp [ih r hd]

-- ===== claim theorems: sort stage =====

/-- C1 counterexample: two items whose runquantity metrics are the Python
strings a and b (non-numeric); the claim ranks both as zero, a tie, so by
stability the output would keep the input order, but the code multiplies the
strings out and sorts the string keys, reversing the pair. -/
theorem c1_counterexample_string_metric_not_zero :
    (sort_queries_by_total_time [exQa, exQb]).toOption = some [exQb, exQa] ∧
    [exQb, exQa] ≠ [exQa, exQb] :=
  ⟨rfl, by decide⟩

/-- C1 amended: on every workload whose present metrics are all integers (a
missing metric is allowed and counts as zero), the sort stage succeeds, its
output is non-increasing in impact, and items tied on impact keep their
original relative order; a non-numeric metric is not treated as zero. -/
theorem c1_sort_descending_stable_missing_zero (qs : List QueryItem)
    (h : ∀ q ∈ qs, isIntMetric q.runquantity = true ∧ isIntMetric q.executiontime = true) :
    ∃ out, sort_queries_by_total_time qs = Except.ok out ∧
      List.Pairwise (fun a b => impact b ≤ impact a) out ∧
      ∀ k : Int, out.filter (fun q => impact q == k) = qs.filter (fun q => impact q == k) :=
  ⟨sortQ qs, sort_int qs h, pairwise_sortQ qs, fun k => filter_sortQ qs k⟩

/-- C1 witness: the spec section 8 example A(2,5), B(0,100), C(3,1). -/
theorem c1_sort_witness :
    ∃ out, sort_queries_by_total_time [exA, exB, exC] = Except.ok out ∧
      List.Pairwise (fun a b => impact b ≤ impact a) out ∧
      ∀ k : Int, out.filter (fun q => impact q == k)
          = [exA, exB, exC].filter (fun q => impact q == k) :=
  c1_sort_descending_stable_missing_zero [exA, exB, exC] (by decide)

/-- C9: whenever the sort stage succeeds, its output is a permutation of the
input items: the very same records, every field unchanged, merely reordered. -/
theorem c9_sort_permutation (qs out : List QueryItem)
    (h : sort_queries_by_total_time qs = Except.ok out) : out.Perm qs := by
  rw [sort_queries_by_total_time] at h
  cases hd : decorateE qs with
  | error e => rw [hd] at h; cases h
  | ok keyed =>
    rw [hd] at h
    dsimp only at h
    cases hs : sortE keyed with
    | error e => rw [hs] at h; cases h
    | ok s =>
      rw [hs] at h
      dsimp only at h
      cases h
      have hp := (sortE_perm keyed s hs).map Prod.fst
      rwa [decorateE_fst qs keyed hd] at hp

/-- C9 witness: the sort stage applied to the two concrete items reorders them
into a permutation of the input. -/
theorem c9_sort_permutation_witness : List.Perm [exQb, exQa] [exQa, exQb] :=
  c9_sort_permutation [exQa, exQb] [exQb, exQa] rfl

-- ===== helper lemmas: sanitizer =====

theorem mem_of_getLast?_eq {l : Str} {x : Char} (h : l.getLast? = some x) : x ∈ l := by
  induction l with
  | nil => cases h
  | cons c rest ih =>
    cases rest with
    | nil =>
      simp [List.getLast?] at h
      simp [h]
    | cons d rest' =>
      rw [List.getLast?_cons_cons] at h
      exact List.mem_cons_of_mem c (ih h)

theorem dropWhile_append_of_mem {p : Char → Bool} {a : Str} (b : Str) {x : Char}
    (hx : x ∈ a) (hpx : p x = false) :
    List.dropWhile p (a ++ b) = List.dropWhile p a ++ b := by
  induction a with
  | nil => cases hx
  | cons c as ih =>
    by_cases hc : p c = true
    · have hxas : x ∈ as := by
        rcases List.mem_cons.mp hx with rfl | h
        · rw [hpx] at hc; cases hc
        · exact h
      rw [List.cons_append, List.dropWhile_cons, List.dropWhile_cons]
      simp only [hc, if_true]
      exact ih hxas
    · rw [List.cons_append, List.dropWhile_cons, List.dropWhile_cons]
      simp [hc]

theorem dropWhile_ne_nil_of_mem {p : Char → Bool} {a : Str} {x : Char}
    (hx : x ∈ a) (hpx : p x = false) :
    List.dropWhile p a ≠ [] := by
  induction a with
  | nil => cases hx
  | cons c as ih =>
    by_cases hc : p c = true
    · have hxas : x ∈ as := by
        rcases List.mem_cons.mp hx with rfl | h
        · rw [hpx] at hc; cases hc
        · exact h
      rw [List.dropWhile_cons]
      simp only [hc, if_true]
      exact ih hxas
    · rw [List.dropWhile_cons]
      simp [hc]

theorem getLast?_dropWhile {p : Char → Bool} {l : Str}
    (h : List.dropWhile p l ≠ []) :
    (List.dropWhile p l).getLast? = l.getLast? := by
  induction l with
  | nil => rfl
  | cons c rest ih =>
    by_cases hc : p c = true
    · rw [List.dropWhile_cons] at h ⊢
      simp only [hc, if_true] at h ⊢
      cases rest with
      | nil => exact absurd rfl h
      | cons d rest' =>
        rw [List.getLast?_cons_cons]
        exact ih h
    · rw [List.dropWhile_cons]
      simp [hc]

theorem mem_of_mem_dropWhile {p : Char → Bool} {l : Str} {x : Char}
    (h : x ∈ List.dropWhile p l) : x ∈ l := by
  induction l with
  | nil => simp [List.dropWhile] at h
  | cons c rest ih =>
    rw [List.dropWhile_cons] at h
    by_cases hc : p c = true
    · simp only [hc, if_true] at h
      exact List.mem_cons_of_mem c (ih h)
    · simp only [hc, if_false] at h
      exact h

theorem dropWhile_idem {p : Char → Bool} (l : Str) :
    List.dropWhile p (List.dropWhile p l) = List.dropWhile p l := by
  induction l with
  | nil => rfl
  | cons c rest ih =>
    by_cases hc : p c = true
    · rw [List.dropWhile_cons]
      simp only [hc, if_true]
      exact ih
    · simp [List.dropWhile_cons, hc]

theorem pyDropTrail_cons (p : Char → Bool) (c : Char) (rest : Str) :
    pyDropTrail p (c :: rest) =
      if (pyDropTrail p rest).isEmpty && p c then [] else c :: pyDropTrail p rest := rfl

theorem pyDropTrail_last_keep {p : Char → Bool} {l : Str} {x : Char}
    (h : l.getLast? = some x) (hp : p x = false) : pyDropTrail p l = l := by
  induction l with
  | nil => cases h
  | cons c rest ih =>
    cases rest with
    | nil =>
      simp [List.getLast?] at h
      subst h
      simp [pyDropTrail_cons, pyDropTrail, hp]
    | cons d rest' =>
      rw [List.getLast?_cons_cons] at h
      rw [pyDropTrail_cons, ih h]
      simp

theorem pyDropTrail_append {p : Char → Bool} (a : Str) {b : Str}
    (h : pyDropTrail p b ≠ []) :
    pyDropTrail p (a ++ b) = a ++ pyDropTrail p b := by
  induction a with
  | nil => simp
  | cons c as ih =>
    rw [List.cons_append, pyDropTrail_cons, ih]
    have hne : (as ++ pyDropTrail p b).isEmpty = false := by
      rw [List.isEmpty_eq_false]
      intro hh
      exact h (List.append_eq_nil.mp hh).2
    rw [hne]
    simp

theorem pyStrip_of_last {l : Str} {x : Char}
    (h : l.getLast? = some x) (hp : isPySpace x = false) :
    pyStrip l = l.dropWhile isPySpace ∧ pyStrip l ≠ [] ∧ (pyStrip l).getLast? = some x := by
  have hxl : x ∈ l := mem_of_getLast?_eq h
  have hne : l.dropWhile isPySpace ≠ [] := dropWhile_ne_nil_of_mem hxl hp
  have hlast : (l.dropWhile isPySpace).getLast? = some x := by
    rw [getLast?_dropWhile hne, h]
  have heq : pyStrip l = l.dropWhile isPySpace :=
    pyDropTrail_last_keep hlast hp
  exact ⟨heq, by rw [heq]; exact hne, by rw [heq]; exact hlast⟩

theorem pyStrip_dropWhile (l : Str) : pyStrip (l.dropWhile isPySpace) = pyStrip l := by
  rw [pyStrip, pyStrip, dropWhile_idem]

theorem stripTicks_id {l : Str} (h : tick ∉ l) : stripTicks l = l := by
  induction l with
  | nil => rfl
  | cons c rest ih =>
    have hc : ¬ c = tick := by rintro rfl; exact h (List.mem_cons_self _ _)
    have hrest : tick ∉ rest := fun hm => h (List.mem_cons_of_mem c hm)
    cases rest with
    | nil => rfl
    | cons c2 rest2 =>
      cases rest2 with
      | nil => rfl
      | cons c3 rest3 =>
        rw [stripTicks]
        rw [if_neg (by simp [hc])]
        rw [ih hrest]

theorem splitNL_no_nl (a : Str) (h : '\n' ∉ a) : splitNL a = [a] := by
  induction a with
  | nil => rfl
  | cons c rest ih =>
    have hc : ¬ c = '\n' := by rintro rfl; exact h (List.mem_cons_self _ _)
    have hrest : '\n' ∉ rest := fun hm => h (List.mem_cons_of_mem c hm)
    rw [splitNL, if_neg hc, ih hrest]

theorem splitNL_append (a r : Str) (h : '\n' ∉ a) :
    splitNL (a ++ '\n' :: r) = a :: splitNL r := by
  induction a with
  | nil => simp [splitNL]
  | cons c as ih =>
    have hc : ¬ c = '\n' := by rintro rfl; exact h (List.mem_cons_self _ _)
    have h' : '\n' ∉ as := fun hm => h (List.mem_cons_of_mem c hm)
    rw [List.cons_append, splitNL, if_neg hc, ih h']

theorem isFenceOpenLine_of_no_tick {l : Str} (h : tick ∉ l) :
    isFenceOpenLine l = false := by
  cases l with
  | nil => rfl
  | cons c1 rest =>
    cases rest with
    | nil => rfl
    | cons c2 rest2 =>
      cases rest2 with
      | nil => rfl
      | cons c3 rest3 =>
        have hc : ¬ c1 = tick := by rintro rfl; exact h (by simp)
        simp [isFenceOpenLine, hc]

/-- C7: for every text that is a fenced code block (any word-character
language tag) wrapping exactly three newline-separated, semicolon-terminated,
backquote-free lines, split_clean yields exactly the three lines, each
stripped of surrounding whitespace, non-empty, in the original order. -/
theorem c7_sanitizer_roundtrip (lang l1 l2 l3 : Str)
    (hlang : lang.all isWordChar = true)
    (h1n : '\n' ∉ l1) (h1t : tick ∉ l1) (h1s : l1.getLast? = some ';')
    (h2n : '\n' ∉ l2) (h2t : tick ∉ l2) (h2s : l2.getLast? = some ';')
    (h3n : '\n' ∉ l3) (h3t : tick ∉ l3) (h3s : l3.getLast? = some ';') :
    splitClean ((tick :: tick :: tick :: lang) ++
        '\n' :: (l1 ++ '\n' :: (l2 ++ '\n' :: (l3 ++ '\n' :: ticks3))))
      = [pyStrip l1, pyStrip l2, pyStrip l3] ∧
    pyStrip l1 ≠ [] ∧ pyStrip l2 ≠ [] ∧ pyStrip l3 ≠ [] := by
  have hsemi : isPySpace ';' = false := by decide
  have hlang_nl : '\n' ∉ lang := by
    intro hm
    have hw := List.all_eq_true.mp hlang _ hm
    exact absurd hw (by decide)
  have hfence_nl : '\n' ∉ (tick :: tick :: tick :: lang) := by
    intro hm
    simp only [List.mem_cons] at hm
    rcases hm with h | h | h | h
    · exact absurd h (by decide)
    · exact absurd h (by decide)
    · exact absurd h (by decide)
    · exact hlang_nl h
  have hticks_nl : '\n' ∉ ticks3 := by decide
  -- the five lines of the fenced block
  have hsplit : splitNL ((tick :: tick :: tick :: lang) ++
      '\n' :: (l1 ++ '\n' :: (l2 ++ '\n' :: (l3 ++ '\n' :: ticks3))))
      = (tick :: tick :: tick :: lang) :: l1 :: l2 :: l3 :: [ticks3] := by
    rw [splitNL_append _ _ hfence_nl, splitNL_append _ _ h1n,
      splitNL_append _ _ h2n, splitNL_append _ _ h3n, splitNL_no_nl _ hticks_nl]
  have hfence_open : isFenceOpenLine (tick :: tick :: tick :: lang) = true := by
    simp [isFenceOpenLine, hlang]
  have hsub1 : sub1Lines ((tick :: tick :: tick :: lang) :: l1 :: l2 :: l3 :: [ticks3])
      = l1 :: l2 :: l3 :: [ticks3] := by
    simp [sub1Lines, hfence_open, isFenceOpenLine_of_no_tick h1t,
      isFenceOpenLine_of_no_tick h2t, isFenceOpenLine_of_no_tick h3t]
  have h2ne : l2 ≠ ticks3 := by rintro rfl; exact h2t (by simp [ticks3])
  have h3ne : l3 ≠ ticks3 := by rintro rfl; exact h3t (by simp [ticks3])
  have hsub2 : sub2Lines (l1 :: l2 :: l3 :: [ticks3]) = [l1, l2, l3] := by
    simp [sub2Lines, List.filter_cons, h2ne, h3ne]
  have hjoin : joinNL [l1, l2, l3] = l1 ++ '\n' :: (l2 ++ '\n' :: l3) := by
    simp [joinNL]
  have hJt : tick ∉ l1 ++ '\n' :: (l2 ++ '\n' :: l3) := by
    intro hm
    simp only [List.mem_append, List.mem_cons] at hm
    rcases hm with h | h | h | h | h
    · exact h1t h
    · exact absurd h (by decide)
    · exact h2t h
    · exact absurd h (by decide)
    · exact h3t h
  have hl3ne : l3 ≠ [] := by rintro rfl; cases h3s
  have hJlast : (l1 ++ '\n' :: (l2 ++ '\n' :: l3)).getLast? = some ';' := by
    rw [List.getLast?_append, List.getLast?_cons, List.getLast?_append,
      List.getLast?_cons, h3s]
    simp
  have hJstrip := pyStrip_of_last hJlast hsemi
  have hdw : (l1 ++ '\n' :: (l2 ++ '\n' :: l3)).dropWhile isPySpace
      = (l1.dropWhile isPySpace) ++ '\n' :: (l2 ++ '\n' :: l3) :=
    dropWhile_append_of_mem _ (mem_of_getLast?_eq h1s) hsemi
  have hA_nl : '\n' ∉ l1.dropWhile isPySpace := fun hm => h1n (mem_of_mem_dropWhile hm)
  have hstrip1 := pyStrip_of_last h1s hsemi
  have hstrip2 := pyStrip_of_last h2s hsemi
  have hstrip3 := pyStrip_of_last h3s hsemi
  have hfin : splitClean ((tick :: tick :: tick :: lang) ++
      '\n' :: (l1 ++ '\n' :: (l2 ++ '\n' :: (l3 ++ '\n' :: ticks3))))
      = [pyStrip l1, pyStrip l2, pyStrip l3] := by
    rw [splitClean, stripMarkdownAndClean, hsplit, hsub1, hsub2, hjoin,
      stripTicks_id hJt, hJstrip.1, hdw,
      splitNL_append _ _ hA_nl, splitNL_append _ _ h2n, splitNL_no_nl _ h3n]
    rw [List.map_cons, List.map_cons, List.map_cons, List.map_nil]
    rw [pyStrip_dropWhile]
    rw [List.filter_cons, List.filter_cons, List.filter_cons]
    simp [hstrip1.2.1, hstrip2.2.1, hstrip3.2.1]
  exact ⟨hfin, hstrip1.2.1, hstrip2.2.1, hstrip3.2.1⟩

/-- C7 witness: the concrete fenced block with language tag sql and three
concrete semicolon-terminated statements. -/
theorem c7_sanitizer_roundtrip_witness :
    splitClean ((tick :: tick :: tick :: String.toList "sql") ++
        '\n' :: (String.toList "CREATE TABLE a (x INT);" ++
          '\n' :: (String.toList " INSERT INTO a VALUES (1);" ++
            '\n' :: (String.toList "SELECT x FROM a;" ++ '\n' :: ticks3))))
      = [pyStrip (String.toList "CREATE TABLE a (x INT);"),
         pyStrip (String.toList " INSERT INTO a VALUES (1);"),
         pyStrip (String.toList "SELECT x FROM a;")] ∧
    pyStrip (String.toList "CREATE TABLE a (x INT);") ≠ [] ∧
    pyStrip (String.toList " INSERT INTO a VALUES (1);") ≠ [] ∧
    pyStrip (String.toList "SELECT x FROM a;") ≠ [] :=
  c7_sanitizer_roundtrip (String.toList "sql") _ _ _ (by decide)
    (by decide) (by decide) (by decide)
    (by decide) (by decide) (by decide)
    (by decide) (by decide) (by decide)

theorem containsDD_cons (c : Char) (l : Str) :
    containsDD (c :: l) = ((c = '-' && headIsDash l) || containsDD l) := by
  cases l <;> simp [containsDD, headIsDash]

theorem headIsDash_rlc_false {l : Str} (h : headIsDash l = false) :
    headIsDash (rlcAux false l) = false := by
  cases l with
  | nil => rfl
  | cons c rest =>
    have hc : ¬ c = '-' := by simpa [headIsDash] using h
    cases rest with
    | nil => simpa [rlcAux, headIsDash] using h
    | cons d rest2 => simp [rlcAux, hc, headIsDash]

theorem containsDD_rlc (b : Bool) (l : Str) : containsDD (rlcAux b l) = false := by
  induction b, l using rlcAux.induct with
  | case1 b => cases b <;> rfl
  | case2 rest ih =>
    rw [show rlcAux true ('\n' :: rest) = '\n' :: rlcAux false rest from by simp [rlcAux]]
    rw [containsDD_cons, ih]
    simp
  | case3 c rest h ih =>
    rw [show rlcAux true (c :: rest) = rlcAux true rest from by simp [rlcAux, h]]
    exact ih
  | case4 c => rfl
  | case5 c1 c2 rest h ih =>
    rw [show rlcAux false (c1 :: c2 :: rest) = rlcAux true rest from by simp [rlcAux, h]]
    exact ih
  | case6 c1 c2 rest h ih =>
    rw [show rlcAux false (c1 :: c2 :: rest) = c1 :: rlcAux false (c2 :: rest) from by
      simp [rlcAux, h]]
    rw [containsDD_cons, ih]
    by_cases hc1 : c1 = '-'
    · have hc2 : ¬ c2 = '-' := by
        intro hc2
        exact h (by simp [hc1, hc2])
      have hhd : headIsDash (rlcAux false (c2 :: rest)) = false :=
        headIsDash_rlc_false (by simp [headIsDash, hc2])
      simp [hhd]
    · simp [hc1]

theorem mem_rlc {x : Char} {b : Bool} {l : Str} (h : x ∈ rlcAux b l) : x ∈ l := by
  revert h
  induction b, l using rlcAux.induct with
  | case1 b => intro h; cases b <;> simp [rlcAux] at h
  | case2 rest ih =>
    intro h
    rw [show rlcAux true ('\n' :: rest) = '\n' :: rlcAux false rest from by simp [rlcAux]] at h
    rcases List.mem_cons.mp h with rfl | h
    · exact List.mem_cons_self _ _
    · exact List.mem_cons_of_mem _ (ih h)
  | case3 c rest hc ih =>
    intro h
    rw [show rlcAux true (c :: rest) = rlcAux true rest from by simp [rlcAux, hc]] at h
    exact List.mem_cons_of_mem _ (ih h)
  | case4 c => intro h; exact h
  | case5 c1 c2 rest hcond ih =>
    intro h
    rw [show rlcAux false (c1 :: c2 :: rest) = rlcAux true rest from by simp [rlcAux, hcond]] at h
    exact List.mem_cons_of_mem _ (List.mem_cons_of_mem _ (ih h))
  | case6 c1 c2 rest hcond ih =>
    intro h
    rw [show rlcAux false (c1 :: c2 :: rest) = c1 :: rlcAux false (c2 :: rest) from by
      simp [rlcAux, hcond]] at h
    rcases List.mem_cons.mp h with rfl | h
    · exact List.mem_cons_self _ _
    · exact List.mem_cons_of_mem _ (ih h)

theorem rbc_id {l : Str} (h : '/' ∉ l) : rbcAux false l = l := by
  induction l with
  | nil => rfl
  | cons c rest ih =>
    have hc : ¬ c = '/' := by rintro rfl; exact h (List.mem_cons_self _ _)
    have hrest : '/' ∉ rest := fun hm => h (List.mem_cons_of_mem c hm)
    cases rest with
    | nil => rfl
    | cons d rest2 =>
      rw [show rbcAux false (c :: d :: rest2) = c :: rbcAux false (d :: rest2) from by
        simp [rbcAux, hc]]
      rw [ih hrest]

theorem stripFences_id {l : Str} (h : tick ∉ l) : stripFences l = l := by
  induction l with
  | nil => simp [stripFences]
  | cons c rest ih =>
    have hc : ¬ c = tick := by rintro rfl; exact h (List.mem_cons_self _ _)
    have hrest : tick ∉ rest := fun hm => h (List.mem_cons_of_mem c hm)
    cases rest with
    | nil => simp [stripFences]
    | cons c2 rest2 =>
      cases rest2 with
      | nil => simp [stripFences]
      | cons c3 rest3 =>
        rw [stripFences, if_neg (by simp [hc]), ih hrest]

theorem headIsDash_crnt_false {l : Str} (h : headIsDash l = false) :
    headIsDash (crntAux false l) = false := by
  cases l with
  | nil => rfl
  | cons c rest =>
    by_cases hc : isRNT c = true
    · simp [crntAux, hc, headIsDash]
    · simp only [crntAux, hc, if_false, Bool.false_eq_true]
      simpa [headIsDash] using h

theorem containsDD_crnt (b : Bool) (l : Str) (h : containsDD l = false) :
    containsDD (crntAux b l) = false := by
  revert h
  induction b, l using crntAux.induct with
  | case1 b => intro h; cases b <;> rfl
  | case2 c rest hc ih =>
    intro h
    obtain ⟨h1, h2⟩ := Bool.or_eq_false_iff.mp ((containsDD_cons c rest) ▸ h)
    rw [show crntAux true (c :: rest) = crntAux true rest from by simp [crntAux, hc]]
    exact ih h2
  | case3 c rest hc ih =>
    intro h
    obtain ⟨h1, h2⟩ := Bool.or_eq_false_iff.mp ((containsDD_cons c rest) ▸ h)
    rw [show crntAux true (c :: rest) = c :: crntAux false rest from by simp [crntAux, hc]]
    rw [containsDD_cons, ih h2]
    by_cases hcd : c = '-'
    · have hhd : headIsDash rest = false := by simpa [hcd] using h1
      simp [headIsDash_crnt_false hhd]
    · simp [hcd]
  | case4 c rest hc ih =>
    intro h
    obtain ⟨h1, h2⟩ := Bool.or_eq_false_iff.mp ((containsDD_cons c rest) ▸ h)
    rw [show crntAux false (c :: rest) = ' ' :: crntAux true rest from by simp [crntAux, hc]]
    rw [containsDD_cons, ih h2]
    simp
  | case5 c rest hc ih =>
    intro h
    obtain ⟨h1, h2⟩ := Bool.or_eq_false_iff.mp ((containsDD_cons c rest) ▸ h)
    rw [show crntAux false (c :: rest) = c :: crntAux false rest from by simp [crntAux, hc]]
    rw [containsDD_cons, ih h2]
    by_cases hcd : c = '-'
    · have hhd : headIsDash rest = false := by simpa [hcd] using h1
      simp [headIsDash_crnt_false hhd]
    · simp [hcd]

theorem headIsDash_cws_false {l : Str} (h : headIsDash l = false) :
    headIsDash (cwsAux false l) = false := by
  cases l with
  | nil => rfl
  | cons c rest =>
    by_cases hc : isPySpace c = true
    · simp [cwsAux, hc, headIsDash]
    · simp only [cwsAux, hc, if_false, Bool.false_eq_true]
      simpa [headIsDash] using h

theorem containsDD_cws (b : Bool) (l : Str) (h : containsDD l = false) :
    containsDD (cwsAux b l) = false := by
  revert h
  induction b, l using cwsAux.induct with
  | case1 b => intro h; cases b <;> rfl
  | case2 c rest hc ih =>
    intro h
    obtain ⟨h1, h2⟩ := Bool.or_eq_false_iff.mp ((containsDD_cons c rest) ▸ h)
    rw [show cwsAux true (c :: rest) = cwsAux true rest from by simp [cwsAux, hc]]
    exact ih h2
  | case3 c rest hc ih =>
    intro h
    obtain ⟨h1, h2⟩ := Bool.or_eq_false_iff.mp ((containsDD_cons c rest) ▸ h)
    rw [show cwsAux true (c :: rest) = c :: cwsAux false rest from by simp [cwsAux, hc]]
    rw [containsDD_cons, ih h2]
    by_cases hcd : c = '-'
    · have hhd : headIsDash rest = false := by simpa [hcd] using h1
      simp [headIsDash_cws_false hhd]
    · simp [hcd]
  | case4 c rest hc ih =>
    intro h
    obtain ⟨h1, h2⟩ := Bool.or_eq_false_iff.mp ((containsDD_cons c rest) ▸ h)
    rw [show cwsAux false (c :: rest) = ' ' :: cwsAux true rest from by simp [cwsAux, hc]]
    rw [containsDD_cons, ih h2]
    simp
  | case5 c rest hc ih =>
    intro h
    obtain ⟨h1, h2⟩ := Bool.or_eq_false_iff.mp ((containsDD_cons c rest) ▸ h)
    rw [show cwsAux false (c :: rest) = c :: cwsAux false rest from by simp [cwsAux, hc]]
    rw [containsDD_cons, ih h2]
    by_cases hcd : c = '-'
    · have hhd : headIsDash rest = false := by simpa [hcd] using h1
      simp [headIsDash_cws_false hhd]
    · simp [hcd]

theorem containsDD_dropWhile {p : Char → Bool} {l : Str} (h : containsDD l = false) :
    containsDD (List.dropWhile p l) = false := by
  induction l with
  | nil => simpa [List.dropWhile]
  | cons c rest ih =>
    obtain ⟨h1, h2⟩ := Bool.or_eq_false_iff.mp ((containsDD_cons c rest) ▸ h)
    rw [List.dropWhile_cons]
    by_cases hc : p c = true
    · simp only [hc, if_true]
      exact ih h2
    · simp only [hc, if_false]
      exact (containsDD_cons c rest) ▸ h

theorem headIsDash_pyDropTrail {p : Char → Bool} {l : Str} (h : headIsDash l = false) :
    headIsDash (pyDropTrail p l) = false := by
  cases l with
  | nil => rfl
  | cons c rest =>
    rw [pyDropTrail_cons]
    by_cases hcond : ((pyDropTrail p rest).isEmpty && p c) = true
    · simp [hcond, headIsDash]
    · simp only [hcond, if_false, Bool.false_eq_true]
      simpa [headIsDash] using h

theorem containsDD_pyDropTrail {p : Char → Bool} {l : Str} (h : containsDD l = false) :
    containsDD (pyDropTrail p l) = false := by
  induction l with
  | nil => rfl
  | cons c rest ih =>
    obtain ⟨h1, h2⟩ := Bool.or_eq_false_iff.mp ((containsDD_cons c rest) ▸ h)
    rw [pyDropTrail_cons]
    by_cases hcond : ((pyDropTrail p rest).isEmpty && p c) = true
    · simp [hcond, containsDD]
    · simp only [hcond, if_false, Bool.false_eq_true]
      rw [containsDD_cons, ih h2]
      by_cases hcd : c = '-'
      · have hhd : headIsDash rest = false := by simpa [hcd] using h1
        simp [headIsDash_pyDropTrail hhd]
      · simp [hcd]

theorem containsDD_pyStrip {l : Str} (h : containsDD l = false) :
    containsDD (pyStrip l) = false :=
  containsDD_pyDropTrail (containsDD_dropWhile h)

theorem containsDD_append_semi {l : Str} (h : containsDD l = false) :
    containsDD (l ++ [';']) = false := by
  induction l with
  | nil => rfl
  | cons c rest ih =>
    obtain ⟨h1, h2⟩ := Bool.or_eq_false_iff.mp ((containsDD_cons c rest) ▸ h)
    rw [List.cons_append, containsDD_cons, ih h2]
    by_cases hcd : c = '-'
    · have hrest : headIsDash rest = false := by simpa [hcd] using h1
      have hap : headIsDash (rest ++ [';']) = false := by
        cases rest with
        | nil => rfl
        | cons d r2 => simpa [headIsDash] using hrest
      simp [hap]
    · simp [hcd]

theorem containsDD_cleanFinal {l : Str} (h : containsDD l = false) :
    containsDD (cleanFinal l) = false := by
  rw [cleanFinal]
  split
  · exact h
  · split
    · exact h
    · exact containsDD_append_semi h

-- ===== claim theorems: sanitizer comment handling =====

/-- C8 counterexample: split_clean of DDLAgent / DeveloperAgent does not
remove SQL comments: on a fenced block whose first body line is a single-line
SQL comment, the comment line survives as a returned statement, whose first
two characters are the double-dash comment opener. -/
theorem c8_counterexample_comment_survives_split_clean :
    splitClean exC8text = [exComment, exSelect] ∧
    containsDD exComment = true ∧
    headIsDash exComment = true :=
  ⟨by decide, by decide, by decide⟩

/-- C8 amended: only QueryOptimizerAgent clean_llm_output removes SQL
comments (line comments first, then block comments, before whitespace
normalisation); for any input without backquotes and without slashes its
output never contains two adjacent dashes, so no line-comment text survives;
split_clean performs no comment removal at all. -/
theorem c8_clean_llm_output_no_line_comments (t : Str)
    (ht : tick ∉ t) (hs : '/' ∉ t) :
    containsDD (cleanLLMOutput t) = false := by
  rw [cleanLLMOutput, stripFences_id ht]
  have h2 : containsDD (removeLineComments t) = false := containsDD_rlc false t
  have h2s : '/' ∉ removeLineComments t := fun hm => hs (mem_rlc hm)
  rw [show removeBlockComments (removeLineComments t) = removeLineComments t from rbc_id h2s]
  exact containsDD_cleanFinal (containsDD_pyStrip (containsDD_cws false _ (containsDD_crnt false _ h2)))

/-- C8 witness: the no-line-comment property of clean_llm_output instantiated
at a concrete fence-free, slash-free LLM answer containing a line comment. -/
theorem c8_clean_llm_output_witness :
    tick ∉ exC8clean ∧ '/' ∉ exC8clean ∧ containsDD (cleanLLMOutput exC8clean) = false :=
  ⟨by decide, by decide,
    c8_clean_llm_output_no_line_comments exC8clean (by decide) (by decide)⟩
